import Mathlib

/-!
# Schedule-of-Assessments Optimizer — verification development

Shallow embedding of the SoA Optimizer's burden-scoring and optimization
pipeline, together with the frontend result-display logic, and proofs of
the specified properties.

The data model mirrors `frontend/src/types/index.ts`; TypeScript `number`
fields are embedded as `ℚ`, except the fields the spec (§3) declares to
be integers (days, window tolerances, durations in minutes, discomfort
levels), which are embedded as `ℤ`; optional fields are `Option`.  Display components
are embedded from their `.tsx` sources.  Backend components whose source
is not in the repository snapshot (Burden Calculator, Rules Engine,
Consensus Reconciler, Orchestrator) are modelled from the specification;
each such definition carries a doc comment starting `Modelled from the
spec:`.
-/

/-- `Assessment` record from `frontend/src/types/index.ts`.  The final
field `remote_eligible` is not in the TypeScript interface; it is
modelled from the spec (§4.2 rule 4: the Remote Conversion rule "marks
the assessment as remote-eligible without removing it from the visit"),
and is `false` on every input assessment. -/
structure Assessment where
  id : Option String := none
  name : String
  type : String
  duration_minutes : ℤ
  is_invasive : Bool
  is_fasting_required : Bool
  equipment_needed : List String
  staff_required : List String
  cost_estimate : ℚ
  patient_discomfort_level : ℤ
  can_be_done_remotely : Bool
  remote_eligible : Bool := false
deriving DecidableEq, Repr

/-- `Visit` record from `frontend/src/types/index.ts`. -/
structure Visit where
  id : Option String := none
  name : String
  day : ℤ
  window_days_before : ℤ
  window_days_after : ℤ
  assessments : List Assessment
  is_screening : Bool := false
  is_baseline : Bool := false
  is_treatment : Bool := false
  is_follow_up : Bool := false
  notes : Option String := none
deriving DecidableEq, Repr

/-- `Schedule` record from `frontend/src/types/index.ts`. -/
structure Schedule where
  id : Option String := none
  protocol_name : String
  protocol_version : String
  therapeutic_area : String
  phase : String
  visits : List Visit
  total_duration_days : ℤ
  created_at : Option String := none
  updated_at : Option String := none
deriving DecidableEq, Repr

/-- `BurdenScore` record from `frontend/src/types/index.ts`. -/
structure BurdenScore where
  patient_time_hours : ℚ
  patient_travel_count : ℚ
  invasive_procedures_count : ℚ
  fasting_requirements_count : ℚ
  average_discomfort_level : ℚ
  total_score : ℚ
  category : String
deriving DecidableEq, Repr

/-- `SiteBurdenScore` record from `frontend/src/types/index.ts`. -/
structure SiteBurdenScore where
  total_staff_hours : ℚ
  unique_equipment_count : ℚ
  unique_staff_roles_count : ℚ
  total_cost : ℚ
  complex_procedures_count : ℚ
  total_score : ℚ
  category : String
deriving DecidableEq, Repr

/-- `OptimizationSuggestion` record from `frontend/src/types/index.ts`. -/
structure OptimizationSuggestion where
  type : String
  description : String
  impact : String
  visits_affected : List String
  estimated_burden_reduction : ℚ
  implementation_difficulty : String
deriving DecidableEq, Repr

/-- `ComplianceWarning` record from `frontend/src/types/index.ts`. -/
structure ComplianceWarning where
  severity : String
  type : String
  description : String
  affected_visits : List String
  recommendation : String
deriving DecidableEq, Repr

/-- `MCPConsensusInfo` interface from the `MCPConsensusDetails` component.
`pattern_confidence`, `llm_confidence` and `arbitration_used` are optional
in the TypeScript interface. -/
structure MCPConsensusInfo where
  method : String
  confidence : ℚ
  details : String
  pattern_confidence : Option ℚ := none
  llm_confidence : Option ℚ := none
  arbitration_used : Option Bool := none
deriving DecidableEq, Repr

/-- `OptimizationResult` record from `frontend/src/types/index.ts`.
`mcp_consensus_info` is read by `OptimizationResults.tsx` through an
untyped cast, so it is an optional extra field of the payload. -/
structure OptimizationResult where
  original_schedule : Schedule
  optimized_schedule : Schedule
  original_patient_burden : BurdenScore
  optimized_patient_burden : BurdenScore
  original_site_burden : SiteBurdenScore
  optimized_site_burden : SiteBurdenScore
  suggestions : List OptimizationSuggestion
  warnings : List ComplianceWarning
  improvement_percentage : ℚ
  summary : String
  mcp_consensus_info : Option MCPConsensusInfo := none
deriving DecidableEq, Repr

/-! ## Frontend display logic (embedded from the `.tsx` sources) -/

/-- Comparator used by `SuggestionsList` (`(a, b) => b.estimated_burden_reduction
- a.estimated_burden_reduction`): `a` sorts no later than `b` exactly when
`b`'s estimated reduction is at most `a`'s, i.e. descending order. -/
def suggestionDescLE (a b : OptimizationSuggestion) : Bool :=
  decide (b.estimated_burden_reduction ≤ a.estimated_burden_reduction)

/-- `SuggestionsList` sorts a copy of the suggestion list with
`Array.prototype.sort`, which is stable (ES2019); embedded as a stable
merge sort under `suggestionDescLE`. -/
def sortedSuggestions (l : List OptimizationSuggestion) : List OptimizationSuggestion :=
  l.mergeSort suggestionDescLE

/-- `SuggestionsList` render model: each sorted suggestion is paired with
whether it carries the "Applied in optimization" badge, which the
component shows exactly when `index < 5`. -/
def suggestionsListRendered (l : List OptimizationSuggestion) :
    List (OptimizationSuggestion × Bool) :=
  (sortedSuggestions l).enum.map (fun p => (p.2, decide (p.1 < 5)))

/-- `OptimizationComparison` render model: the component shows
`suggestions.slice(0, 10)` and puts the "Applied" badge on entries with
`idx < 5`. -/
def comparisonRendered (l : List OptimizationSuggestion) :
    List (OptimizationSuggestion × Bool) :=
  (l.take 10).enum.map (fun p => (p.2, decide (p.1 < 5)))

/-- JavaScript division where a zero denominator produces a non-number
(NaN or ±Infinity), embedded as `none`. -/
def jsDivOpt (x y : ℚ) : Option ℚ := if y = 0 then none else some (x / y)

/-- `OptimizationResults.tsx` lines 45-48: `Math.round(((original -
optimized) / original) * 100)` on the patient total scores, with no zero
guard.  `Math.round` is `⌊x + 1/2⌋`, which is Mathlib `round`. -/
def patientBurdenReductionDisplay (r : OptimizationResult) : Option ℤ :=
  (jsDivOpt (r.original_patient_burden.total_score - r.optimized_patient_burden.total_score)
      r.original_patient_burden.total_score).map (fun q => round (q * 100))

/-- `OptimizationResults.tsx` lines 50-53: the same unguarded formula on
the site total scores. -/
def siteBurdenReductionDisplay (r : OptimizationResult) : Option ℤ :=
  (jsDivOpt (r.original_site_burden.total_score - r.optimized_site_burden.total_score)
      r.original_site_burden.total_score).map (fun q => round (q * 100))

/-- `OptimizationComparison.tsx` lines 133-135: numeric value of the
patient burden improvement before `toFixed(1)` formatting, again with no
zero guard. -/
def patientBurdenImprovementValue (r : OptimizationResult) : Option ℚ :=
  (jsDivOpt (r.original_patient_burden.total_score - r.optimized_patient_burden.total_score)
      r.original_patient_burden.total_score).map (fun q => q * 100)

/-- JavaScript truthiness of an optional number: `undefined` and `0` are
falsy, every other number is truthy. -/
def jsTruthyNum (o : Option ℚ) : Bool :=
  match o with
  | none => false
  | some x => decide (x ≠ 0)

/-- JavaScript truthiness of an optional boolean. -/
def jsTruthyBool (o : Option Bool) : Bool :=
  match o with
  | none => false
  | some b => b

/-- `MCPConsensusDetails.getMethodLabel` (component source lines 170-187),
including the truthiness tests on the confidence fields and the
fall-through to the final return. -/
def getMethodLabel (c : MCPConsensusInfo) : String :=
  if c.method = "not_available" then "MCP Analysis Not Available"
  else if jsTruthyBool c.arbitration_used then "LLM Arbitration Used"
  else if jsTruthyNum c.pattern_confidence && jsTruthyNum c.llm_confidence
      && decide (|c.pattern_confidence.getD 0 - c.llm_confidence.getD 0| ≤ 20) then
    "Pattern & LLM Agreement"
  else if jsTruthyNum c.pattern_confidence && !jsTruthyNum c.llm_confidence then
    "Pattern Matching Only"
  else "MCP Analysis Completed"

/-- `MCPConsensusDetails` line 224: the Overall Confidence block renders
only when `confidence > 0`. -/
def showsOverallConfidence (c : MCPConsensusInfo) : Bool :=
  decide (0 < c.confidence)

/-- `MCPConsensusDetails` line 245: the Pattern Matching row renders only
when `pattern_confidence !== undefined && pattern_confidence > 0`. -/
def showsPatternRow (c : MCPConsensusInfo) : Bool :=
  c.pattern_confidence.isSome && decide (0 < c.pattern_confidence.getD 0)

/-- `MCPConsensusDetails` line 266: the LLM Validation row renders only
when `llm_confidence !== undefined && llm_confidence > 0`. -/
def showsLlmRow (c : MCPConsensusInfo) : Bool :=
  c.llm_confidence.isSome && decide (0 < c.llm_confidence.getD 0)

/-- `BurdenChart.getCategoryBadge` (in the `ScheduleUpload.tsx` source
file, lines 504-513): category band to badge color classes. -/
def getCategoryBadge (category : String) : String :=
  if category = "Low" then "bg-green-100 text-green-800"
  else if category = "Moderate" then "bg-yellow-100 text-yellow-800"
  else if category = "High" then "bg-orange-100 text-orange-800"
  else if category = "Very High" then "bg-red-100 text-red-800"
  else "bg-gray-100 text-gray-800"

/-! ## Consensus Reconciler (modelled from the spec, §4.3)

The reconciler itself is backend code not present in the repository
snapshot; only its display component is.  It is modelled from the
specification text. -/

/-- A confidence signal from the pattern matcher or the LLM validator. -/
structure MCPSignal where
  confidence : ℚ
  details : String
deriving DecidableEq, Repr

/-- Outcome returned by the external arbitration collaborator. -/
structure ArbitrationOutcome where
  confidence : ℚ
  rationale : String
deriving DecidableEq, Repr

/-- Consensus verdict data (spec §3): method label, overall confidence,
optional component confidences, arbitration flag, details. -/
structure ConsensusVerdict where
  method : String
  confidence : ℚ
  pattern_confidence : Option ℚ
  llm_confidence : Option ℚ
  arbitration_used : Bool
  details : String
deriving DecidableEq, Repr

/-- Agreement threshold on the confidence difference (spec §4.3 policy
threshold, default 20). -/
def agreementThreshold : ℚ := 20

/-- Modelled from the spec: `reconcile(patternResult, llmResult)` of the
Consensus Reconciler (§4.3), whose source is not in the repository
snapshot.  Either input may be absent (`none`), distinct from a present
confidence of 0.  The arbitration collaborator is passed as a function;
it returns `none` when unreachable or timed out, which triggers the
deterministic pattern-only fallback. -/
def reconcile (pattern llm : Option MCPSignal)
    (arb : MCPSignal → MCPSignal → Option ArbitrationOutcome) : ConsensusVerdict :=
  match pattern, llm with
  | none, none =>
      { method := "not available", confidence := 0, pattern_confidence := none,
        llm_confidence := none, arbitration_used := false, details := "" }
  | some p, none =>
      { method := "pattern matching only", confidence := p.confidence,
        pattern_confidence := some p.confidence, llm_confidence := none,
        arbitration_used := false, details := p.details }
  | none, some l =>
      { method := "llm only", confidence := l.confidence,
        pattern_confidence := none, llm_confidence := some l.confidence,
        arbitration_used := false, details := l.details }
  | some p, some l =>
      if |p.confidence - l.confidence| ≤ agreementThreshold then
        { method := "pattern & llm agreement",
          confidence := (p.confidence + l.confidence) / 2,
          pattern_confidence := some p.confidence,
          llm_confidence := some l.confidence,
          arbitration_used := false,
          details := p.details ++ " | " ++ l.details }
      else
        match arb p l with
        | some o =>
            { method := "llm arbitration used", confidence := o.confidence,
              pattern_confidence := some p.confidence,
              llm_confidence := some l.confidence,
              arbitration_used := true, details := o.rationale }
        | none =>
            { method := "pattern matching only (arbitration unavailable)",
              confidence := p.confidence,
              pattern_confidence := some p.confidence,
              llm_confidence := some l.confidence,
              arbitration_used := false, details := p.details }

/-- The consensus block the orchestrator forwards to the frontend,
field-for-field from the verdict. -/
def verdictToInfo (v : ConsensusVerdict) : MCPConsensusInfo :=
  { method := v.method, confidence := v.confidence, details := v.details,
    pattern_confidence := v.pattern_confidence,
    llm_confidence := v.llm_confidence,
    arbitration_used := some v.arbitration_used }

/-! ## Burden Calculator (modelled from the spec, §4.1) -/

/-- Modelled from the spec: category banding of a total burden score
(§4.1): Low below 25, Moderate 25-49, High 50-74, Very High from 75.
The Burden Calculator source is not in the repository snapshot. -/
def categorize (score : ℚ) : String :=
  if score < 25 then "Low"
  else if score < 50 then "Moderate"
  else if score < 75 then "High"
  else "Very High"

/-- Patient time ceiling in hours (spec §4.1 default 30). -/
def timeCeilingHours : ℚ := 30

/-- Patient travel-count ceiling (spec §4.1 default 15). -/
def travelCeiling : ℚ := 15

/-- Invasive-procedure count ceiling (spec §4.1 default 10). -/
def invasiveCeiling : ℚ := 10

/-- Fasting-count ceiling; the spec gives no default, fixed here as a
policy constant. -/
def fastingCeiling : ℚ := 10

/-- A component value normalized to 0-100 against its ceiling, with the
contribution capped at the ceiling (spec §4.1). -/
def normalizedComponent (value ceiling : ℚ) : ℚ :=
  min value ceiling / ceiling * 100

/-- An assessment is performed in person unless rule 4 has marked it
remote-eligible. -/
def inPerson (a : Assessment) : Bool := !a.remote_eligible

/-- A visit requires physical presence when some of its assessments is
performed in person (spec §4.1: a visit not flagged fully remote). -/
def visitRequiresPresence (v : Visit) : Bool :=
  v.assessments.any inPerson

/-- All assessments of a list of visits, in schedule order. -/
def allAssessments (vs : List Visit) : List Assessment :=
  vs.bind Visit.assessments

/-- Total in-person assessment minutes across a schedule. -/
def totalInPersonMinutes (vs : List Visit) : ℤ :=
  ((allAssessments vs).filter inPerson).foldr (fun a acc => a.duration_minutes + acc) 0

/-- Count of visits requiring physical presence. -/
def travelCount (vs : List Visit) : ℚ :=
  ((vs.filter visitRequiresPresence).length : ℚ)

/-- Count of invasive assessments. -/
def invasiveCount (vs : List Visit) : ℚ :=
  (((allAssessments vs).filter Assessment.is_invasive).length : ℚ)

/-- Count of fasting-required assessments. -/
def fastingCount (vs : List Visit) : ℚ :=
  (((allAssessments vs).filter Assessment.is_fasting_required).length : ℚ)

/-- Mean discomfort level across all assessments, 0 when there are none
(spec §4.1). -/
def averageDiscomfort (vs : List Visit) : ℚ :=
  let as := allAssessments vs
  if as.length = 0 then 0
  else ((as.foldr (fun a acc => a.patient_discomfort_level + acc) 0 : ℤ) : ℚ) / (as.length : ℚ)

/-- Fixed relative weights of the five patient components (spec §4.1:
policy constants summing to 1.0; the spec fixes no individual values, so
representative ones are used). -/
def timeWeight : ℚ := 3/10
/-- Travel component weight. -/
def travelWeight : ℚ := 1/4
/-- Invasive component weight. -/
def invasiveWeight : ℚ := 1/5
/-- Fasting component weight. -/
def fastingWeight : ℚ := 1/10
/-- Discomfort component weight. -/
def discomfortWeight : ℚ := 3/20

/-- Modelled from the spec: the patient total burden score (§4.1), a
weighted sum of the five normalized components. -/
def patientTotalScore (vs : List Visit) : ℚ :=
  timeWeight * normalizedComponent ((totalInPersonMinutes vs : ℚ) / 60) timeCeilingHours
    + travelWeight * normalizedComponent (travelCount vs) travelCeiling
    + invasiveWeight * normalizedComponent (invasiveCount vs) invasiveCeiling
    + fastingWeight * normalizedComponent (fastingCount vs) fastingCeiling
    + discomfortWeight * (averageDiscomfort vs / 10 * 100)

/-- Modelled from the spec: `computePatientBurden` output record (§4.1). -/
def patientBurdenOf (vs : List Visit) : BurdenScore :=
  { patient_time_hours := (totalInPersonMinutes vs : ℚ) / 60,
    patient_travel_count := travelCount vs,
    invasive_procedures_count := invasiveCount vs,
    fasting_requirements_count := fastingCount vs,
    average_discomfort_level := averageDiscomfort vs,
    total_score := patientTotalScore vs,
    category := categorize (patientTotalScore vs) }

/-- Total staff hours: per assessment, its duration is spent by each
required staff role (spec §4.1 site formula). -/
def totalStaffHours (vs : List Visit) : ℚ :=
  (allAssessments vs).foldr
    (fun a acc => (a.duration_minutes : ℚ) * (a.staff_required.length : ℚ) / 60 + acc) 0

/-- Distinct pieces of equipment needed across the schedule. -/
def uniqueEquipment (vs : List Visit) : ℚ :=
  ((((allAssessments vs).bind Assessment.equipment_needed).dedup).length : ℚ)

/-- Distinct staff roles needed across the schedule. -/
def uniqueStaffRoles (vs : List Visit) : ℚ :=
  ((((allAssessments vs).bind Assessment.staff_required).dedup).length : ℚ)

/-- Total cost estimate across the schedule. -/
def totalCost (vs : List Visit) : ℚ :=
  (allAssessments vs).foldr (fun a acc => a.cost_estimate + acc) 0

/-- A complex procedure requires at least two staff roles or specialized
equipment (spec §4.1). -/
def isComplexProcedure (a : Assessment) : Bool :=
  decide (2 ≤ a.staff_required.length) || !a.equipment_needed.isEmpty

/-- Count of complex procedures. -/
def complexCount (vs : List Visit) : ℚ :=
  (((allAssessments vs).filter isComplexProcedure).length : ℚ)

/-- Staff-hours ceiling (site policy constant; spec fixes no default). -/
def staffHoursCeiling : ℚ := 100
/-- Unique-equipment ceiling (site policy constant). -/
def equipmentCeiling : ℚ := 10
/-- Unique-staff-roles ceiling (site policy constant). -/
def rolesCeiling : ℚ := 10
/-- Cost ceiling for normalization (site policy constant). -/
def costCeiling : ℚ := 100000
/-- Complex-procedure count ceiling (site policy constant). -/
def complexCeiling : ℚ := 10

/-- Modelled from the spec: the site total burden score (§4.1 site
formula mirroring the patient formula; weights are policy constants). -/
def siteTotalScore (vs : List Visit) : ℚ :=
  (1/4) * normalizedComponent (totalStaffHours vs) staffHoursCeiling
    + (3/20) * normalizedComponent (uniqueEquipment vs) equipmentCeiling
    + (3/20) * normalizedComponent (uniqueStaffRoles vs) rolesCeiling
    + (1/4) * normalizedComponent (totalCost vs) costCeiling
    + (1/5) * normalizedComponent (complexCount vs) complexCeiling

/-- Modelled from the spec: `computeSiteBurden` output record (§4.1). -/
def siteBurdenOf (vs : List Visit) : SiteBurdenScore :=
  { total_staff_hours := totalStaffHours vs,
    unique_equipment_count := uniqueEquipment vs,
    unique_staff_roles_count := uniqueStaffRoles vs,
    total_cost := totalCost vs,
    complex_procedures_count := complexCount vs,
    total_score := siteTotalScore vs,
    category := categorize (siteTotalScore vs) }

/-- Structural failure of the engine (spec §7 taxonomy). -/
inductive InvalidScheduleError where
  | emptyVisitList : InvalidScheduleError
  | negativeDuration : InvalidScheduleError
deriving DecidableEq, Repr

/-- Modelled from the spec: `computePatientBurden` (§4.1) fails only on a
structurally invalid Schedule: empty visit list or negative durations. -/
def computePatientBurden (s : Schedule) : Except InvalidScheduleError BurdenScore :=
  if s.visits.isEmpty then .error .emptyVisitList
  else if (allAssessments s.visits).any (fun a => decide (a.duration_minutes < 0)) then
    .error .negativeDuration
  else .ok (patientBurdenOf s.visits)

/-- Modelled from the spec: `computeSiteBurden` (§4.1), same failure
conditions as the patient computation. -/
def computeSiteBurden (s : Schedule) : Except InvalidScheduleError SiteBurdenScore :=
  if s.visits.isEmpty then .error .emptyVisitList
  else if (allAssessments s.visits).any (fun a => decide (a.duration_minutes < 0)) then
    .error .negativeDuration
  else .ok (siteBurdenOf s.visits)

/-- Modelled from the spec: overall percentage improvement with the
division-by-zero guard (§4.4: report 0% when the original total is 0). -/
def improvementPercentage (origTotal optTotal : ℚ) : ℚ :=
  if origTotal = 0 then 0 else (origTotal - optTotal) / origTotal * 100

/-! ## Rules Engine (modelled from the spec, §4.2)

The Rules Engine source is not in the repository snapshot; the five-rule
pipeline below is modelled from the specification text.  Where the spec
leaves a policy threshold or a granularity open, the choice is recorded
in the doc comment of the corresponding definition. -/

/-- Redundancy sliding window in days (spec §4.2 rule 1, default 21). -/
def redundancyWindowDays : ℤ := 21

/-- Consolidation proximity window in days (spec §4.2 rule 2, default 14). -/
def proximityWindowDays : ℤ := 14

/-- Consolidation combined-duration ceiling in minutes (spec §4.2 rule 2,
default 8 hours). -/
def consolidationDurationCeiling : ℤ := 480

/-- Combined invasiveness/fasting policy threshold for consolidation
(spec §4.2 rule 2 names a policy threshold without a default). -/
def consolidationInvasiveFastingCeiling : ℕ := 4

/-- Visit-window tolerance: days before plus days after. -/
def windowTolerance (v : Visit) : ℤ := v.window_days_before + v.window_days_after

/-- An assessment occurrence: visit position, visit, assessment position
inside the visit, assessment. -/
structure Occ where
  vi : ℕ
  visit : Visit
  ai : ℕ
  assessment : Assessment
deriving DecidableEq, Repr

/-- All assessment occurrences of a visit list, in schedule order. -/
def occList (vs : List Visit) : List Occ :=
  vs.enum.bind (fun p => p.2.assessments.enum.map (fun q => ⟨p.1, p.2, q.1, q.2⟩))

/-- Rule 1 flags two occurrences when they sit in distinct visits, share a
category, and their visit days are within the redundancy window. -/
def duplicatePair (o1 o2 : Occ) : Bool :=
  decide (o1.vi ≠ o2.vi)
    && decide (o1.assessment.type = o2.assessment.type)
    && decide (|o1.visit.day - o2.visit.day| ≤ redundancyWindowDays)

/-- Rule 1 tie-break (spec §4.2 rule 1): the occurrence with the larger
visit-window tolerance is kept; on an exact tie the earlier day is kept;
position order resolves exact day ties. -/
def beatsOcc (o1 o2 : Occ) : Bool :=
  decide (windowTolerance o2.visit < windowTolerance o1.visit)
    || (decide (windowTolerance o1.visit = windowTolerance o2.visit)
      && (decide (o1.visit.day < o2.visit.day)
        || (decide (o1.visit.day = o2.visit.day)
          && (decide (o1.vi < o2.vi) || (decide (o1.vi = o2.vi) && decide (o1.ai < o2.ai))))))

/-- An occurrence is removed by rule 1 exactly when some occurrence in
another visit duplicates it within the window and wins the tie-break. -/
def isRedundant (vs : List Visit) (o : Occ) : Bool :=
  (occList vs).any (fun o2 => duplicatePair o2 o && beatsOcc o2 o)

/-- The visit list with the single assessment at visit `i`, position `j`
removed (the isolated change of one rule-1 removal). -/
def removeOcc (vs : List Visit) (i j : ℕ) : List Visit :=
  match vs.get? i with
  | none => vs
  | some v => vs.set i { v with assessments := v.assessments.eraseIdx j }

/-- Position-aware filter: keeps the elements whose position and value
satisfy the predicate. -/
def filterIdx (p : ℕ → α → Bool) (l : List α) : List α :=
  (l.enum.filter (fun q => p q.1 q.2)).map (fun q => q.2)

/-- Modelled from the spec: rule 1, Redundancy Detection (§4.2).  Removes
every occurrence that loses the tie-break against a same-category
occurrence of another visit within the sliding window, and reports one
elimination suggestion per removed occurrence, its estimated reduction
computed from the burden before and after that isolated removal. -/
def rule1 (vs : List Visit) : List Visit × List OptimizationSuggestion :=
  let removed := (occList vs).filter (isRedundant vs)
  let suggs := removed.map (fun o =>
    { type := "elimination",
      description := "Remove redundant assessment " ++ o.assessment.name
        ++ " from visit " ++ o.visit.name,
      impact := "Removes a duplicate assessment inside the redundancy window",
      visits_affected := [o.visit.name],
      estimated_burden_reduction :=
        improvementPercentage (patientTotalScore vs)
          (patientTotalScore (removeOcc vs o.vi o.ai)),
      implementation_difficulty := "Easy" })
  (vs.enum.map (fun p =>
    { p.2 with assessments :=
        filterIdx (fun j a => !isRedundant vs ⟨p.1, p.2, j, a⟩) p.2.assessments }),
   suggs)

/-- Combined assessment minutes of two visits. -/
def combinedDuration (u v : Visit) : ℤ :=
  totalInPersonMinutes [u] + totalInPersonMinutes [v]

/-- Combined invasive plus fasting assessment count of two visits. -/
def combinedInvasiveFasting (u v : Visit) : ℕ :=
  ((u.assessments ++ v.assessments).filter
    (fun a => a.is_invasive || a.is_fasting_required)).length

/-- Rule 2 merge condition (spec §4.2 rule 2): proximity within the
window, combined duration below the ceiling, combined invasive/fasting
burden below the policy threshold. -/
def mergeable (u v : Visit) : Bool :=
  decide (|v.day - u.day| ≤ proximityWindowDays)
    && decide (combinedDuration u v ≤ consolidationDurationCeiling)
    && decide (combinedInvasiveFasting u v < consolidationInvasiveFastingCeiling)

/-- Rule 2 merge: the later visit's assessments move into the earlier
visit, which is renamed to flag the combination; the later visit is
retired. -/
def mergeVisits (u v : Visit) : Visit :=
  { u with name := u.name ++ " + " ++ v.name ++ " (Combined)",
           assessments := u.assessments ++ v.assessments }

/-- Worker for rule 2: the processed visits are accumulated in reverse;
each incoming visit is merged into the most recently accumulated visit
when the pair qualifies.  Suggestions report the burden improvement of
the schedule state before and after each merge. -/
def rule2Go : List Visit → List Visit → List Visit × List OptimizationSuggestion
  | racc, [] => (racc.reverse, [])
  | [], v :: rest => rule2Go [v] rest
  | u :: racctl, v :: rest =>
    if mergeable u v then
      let m := mergeVisits u v
      let before := (u :: racctl).reverse ++ v :: rest
      let after := (m :: racctl).reverse ++ rest
      let sugg : OptimizationSuggestion :=
        { type := "consolidation",
          description := "Consolidate visit " ++ v.name ++ " into visit " ++ u.name,
          impact := "Combines two nearby visits into one",
          visits_affected := [u.name, v.name],
          estimated_burden_reduction :=
            improvementPercentage (patientTotalScore before) (patientTotalScore after),
          implementation_difficulty := "Moderate" }
      let r := rule2Go (m :: racctl) rest
      (r.1, sugg :: r.2)
    else
      rule2Go (v :: u :: racctl) rest

/-- Modelled from the spec: rule 2, Visit Consolidation (§4.2). -/
def rule2 (vs : List Visit) : List Visit × List OptimizationSuggestion :=
  rule2Go [] vs

/-- Names of the assessments of one visit. -/
def namesOfVisit (v : Visit) : List String := v.assessments.map Assessment.name

/-- A visit is entirely captured by a neighbouring visit when it is
nonempty and each of its assessment names appears in that neighbour
(spec §4.2 rule 3). -/
def capturedBy (v : Visit) (o : Option Visit) : Bool :=
  match o with
  | none => false
  | some w => !v.assessments.isEmpty
      && v.assessments.all (fun a => (namesOfVisit w).contains a.name)

/-- Whether the visit at position `i` is droppable by rule 3: its
assessment set is empty, or it is entirely captured by the previous or
the next visit. -/
def droppableAt (vs : List Visit) (i : ℕ) : Bool :=
  match vs.get? i with
  | none => false
  | some v =>
    v.assessments.isEmpty
      || capturedBy v (if i = 0 then none else vs.get? (i - 1))
      || capturedBy v (vs.get? (i + 1))

/-- First droppable visit position, if any. -/
def findDroppable (vs : List Visit) : Option ℕ :=
  (List.range vs.length).find? (droppableAt vs)

/-- Worker for rule 3: repeatedly drop the first droppable visit; each
drop shortens the list, so the list length is enough fuel to reach a
state with no droppable visit. -/
def rule3Iter : ℕ → List Visit → List Visit × List OptimizationSuggestion
  | 0, vs => (vs, [])
  | n + 1, vs =>
    match findDroppable vs with
    | none => (vs, [])
    | some i =>
      match vs.get? i with
      | none => (vs, [])
      | some v =>
        let vs' := vs.eraseIdx i
        let sugg : OptimizationSuggestion :=
          { type := "elimination",
            description := "Eliminate visit " ++ v.name,
            impact := "Drops a visit that is empty or fully captured by an adjacent visit",
            visits_affected := [v.name],
            estimated_burden_reduction :=
              improvementPercentage (patientTotalScore vs) (patientTotalScore vs'),
            implementation_difficulty := "Moderate" }
        let r := rule3Iter n vs'
        (r.1, sugg :: r.2)

/-- Modelled from the spec: rule 3, Complete Elimination (§4.2), iterated
until no droppable visit remains. -/
def rule3 (vs : List Visit) : List Visit × List OptimizationSuggestion :=
  rule3Iter vs.length vs

/-- Rule 4 marks one assessment: remote-feasible, not yet marked. -/
def remoteCandidate (a : Assessment) : Bool :=
  a.can_be_done_remotely && !a.remote_eligible

/-- Marks one assessment remote-eligible when it is a candidate. -/
def markRemote (a : Assessment) : Assessment :=
  if remoteCandidate a then { a with remote_eligible := true } else a

/-- Rule 4 transformation of one visit: in a visit requiring physical
presence, every remote-feasible unmarked assessment is marked
remote-eligible without being removed (spec §4.2 rule 4). -/
def rule4MarkVisit (v : Visit) : Visit :=
  if visitRequiresPresence v then
    { v with assessments := v.assessments.map markRemote }
  else v

/-- The visit list with only the assessment at visit `i`, position `j`
marked remote-eligible (the isolated change of one rule-4 conversion). -/
def markOcc (vs : List Visit) (i j : ℕ) : List Visit :=
  match vs.get? i with
  | none => vs
  | some v =>
    match v.assessments.get? j with
    | none => vs
    | some a =>
      vs.set i { v with assessments := v.assessments.set j { a with remote_eligible := true } }

/-- Modelled from the spec: rule 4, Remote Conversion (§4.2), with one
lower-difficulty suggestion per converted assessment. -/
def rule4 (vs : List Visit) : List Visit × List OptimizationSuggestion :=
  let suggs := vs.enum.bind (fun p =>
    if visitRequiresPresence p.2 then
      (p.2.assessments.enum.filter (fun q => remoteCandidate q.2)).map (fun q =>
        { type := "remote_conversion",
          description := "Perform " ++ q.2.name ++ " remotely",
          impact := "Converts an in-person assessment to remote delivery",
          visits_affected := [p.2.name],
          estimated_burden_reduction :=
            improvementPercentage (patientTotalScore vs)
              (patientTotalScore (markOcc vs p.1 q.1)),
          implementation_difficulty := "Easy" })
    else [])
  (vs.map rule4MarkVisit, suggs)

/-- Adjacent visit pairs, in order. -/
def adjacentPairs : List Visit → List (Visit × Visit)
  | [] => []
  | [_] => []
  | u :: v :: rest => (u, v) :: adjacentPairs (v :: rest)

/-- Rule 5 overlap check between adjacent visits: the later visit's
window opens no later than the earlier visit's window closes. -/
def windowsOverlap (u v : Visit) : Bool :=
  decide (v.day - v.window_days_before ≤ u.day + u.window_days_after)

/-- Modelled from the spec: rule 5, Rescheduling (§4.2): a suggestion per
overlapping adjacent pair, with no mutation of the schedule, so the
isolated before/after burden improvement is computed on an unchanged
schedule. -/
def rule5 (vs : List Visit) : List OptimizationSuggestion :=
  ((adjacentPairs vs).filter (fun p => windowsOverlap p.1 p.2)).map (fun p =>
    { type := "rescheduling",
      description := "Shift visit " ++ p.2.name ++ " outside the window of visit " ++ p.1.name,
      impact := "Resolves a visit-window overlap",
      visits_affected := [p.1.name, p.2.name],
      estimated_burden_reduction :=
        improvementPercentage (patientTotalScore vs) (patientTotalScore vs),
      implementation_difficulty := "Moderate" })

/-- Modelled from the spec: the full rule pipeline on a visit list (§4.2),
each rule operating on the output of the previous rule; the suggestion
list is returned in pipeline order, not yet sorted. -/
def optimizeVisitsRaw (vs : List Visit) : List Visit × List OptimizationSuggestion :=
  let r1 := rule1 vs
  let r2 := rule2 r1.1
  let r3 := rule3 r2.1
  let r4 := rule4 r3.1
  let g5 := rule5 r4.1
  (r4.1, r1.2 ++ r2.2 ++ r3.2 ++ r4.2 ++ g5)

/-- Modelled from the spec: the rule pipeline with the combined suggestion
list finally sorted descending by estimated reduction, ties keeping
pipeline order (§4.2). -/
def optimizeVisits (vs : List Visit) : List Visit × List OptimizationSuggestion :=
  ((optimizeVisitsRaw vs).1, sortedSuggestions (optimizeVisitsRaw vs).2)

/-- Modelled from the spec: `optimize(schedule)` of the Rules Engine
(§4.2). -/
def optimize (s : Schedule) : Schedule × List OptimizationSuggestion :=
  let r := optimizeVisits s.visits
  ({ s with visits := r.1 }, r.2)

/-- Assessment names appearing anywhere in a visit list. -/
def assessmentNames (vs : List Visit) : List String :=
  (allAssessments vs).map Assessment.name

/-! ## Optimization Orchestrator (modelled from the spec, §4.4) -/

/-- Failure of an external advisory collaborator (spec §7 taxonomy). -/
inductive CollaboratorFailure where
  | unavailable : CollaboratorFailure
  | timedOut : CollaboratorFailure
deriving DecidableEq, Repr

/-- Human-readable summary reporting the suggestion count (spec §4.4). -/
def mkSummary (count : ℕ) : String :=
  "Optimization produced " ++ toString count ++ " suggestions"

/-- Modelled from the spec: `runOptimization(schedule)` of the
Orchestrator (§4.4), whose source is not in the repository snapshot.
External collaborator outcomes are passed in: the compliance check either
returns warnings or fails (non-fatally), and the consensus inputs feed
the reconciler.  A structural `InvalidScheduleError` from the burden
computation aborts the run and is surfaced unchanged. -/
def runOptimization (s : Schedule)
    (compliance : Except CollaboratorFailure (List ComplianceWarning))
    (pattern llm : Option MCPSignal)
    (arb : MCPSignal → MCPSignal → Option ArbitrationOutcome) :
    Except InvalidScheduleError OptimizationResult :=
  match computePatientBurden s with
  | .error e => .error e
  | .ok origPatient =>
    match computeSiteBurden s with
    | .error e => .error e
    | .ok origSite =>
      let r := optimize s
      match computePatientBurden r.1 with
      | .error e => .error e
      | .ok optPatient =>
        match computeSiteBurden r.1 with
        | .error e => .error e
        | .ok optSite =>
          let warnings := match compliance with
            | .ok ws => ws
            | .error _ => []
          let verdict := reconcile pattern llm arb
          let improvement :=
            improvementPercentage origPatient.total_score optPatient.total_score
          .ok
            { original_schedule := s,
              optimized_schedule := r.1,
              original_patient_burden := origPatient,
              optimized_patient_burden := optPatient,
              original_site_burden := origSite,
              optimized_site_burden := optSite,
              suggestions := r.2,
              warnings := warnings,
              improvement_percentage := improvement,
              summary := mkSummary r.2.length,
              mcp_consensus_info := some (verdictToInfo verdict) }

/-! ## Concrete fixtures used by closed theorems and witnesses -/

/-- An all-zero patient burden score (total score 0). -/
def zeroBurden : BurdenScore :=
  { patient_time_hours := 0, patient_travel_count := 0, invasive_procedures_count := 0,
    fasting_requirements_count := 0, average_discomfort_level := 0,
    total_score := 0, category := "Low" }

/-- An all-zero site burden score (total score 0). -/
def zeroSiteBurden : SiteBurdenScore :=
  { total_staff_hours := 0, unique_equipment_count := 0, unique_staff_roles_count := 0,
    total_cost := 0, complex_procedures_count := 0, total_score := 0, category := "Low" }

/-- A minimal schedule value for building result fixtures. -/
def emptySchedule : Schedule :=
  { protocol_name := "P", protocol_version := "1", therapeutic_area := "none",
    phase := "1", visits := [], total_duration_days := 0 }

/-- A result whose original total burden scores are 0: the degenerate
input of the zero-division guard. -/
def zeroScoreResult : OptimizationResult :=
  { original_schedule := emptySchedule, optimized_schedule := emptySchedule,
    original_patient_burden := zeroBurden, optimized_patient_burden := zeroBurden,
    original_site_burden := zeroSiteBurden, optimized_site_burden := zeroSiteBurden,
    suggestions := [], warnings := [], improvement_percentage := 0, summary := "" }

/-- A result with original patient total 50 and optimized total 25. -/
def halvedScoreResult : OptimizationResult :=
  { original_schedule := emptySchedule, optimized_schedule := emptySchedule,
    original_patient_burden := { zeroBurden with total_score := 50, category := "High" },
    optimized_patient_burden := { zeroBurden with total_score := 25, category := "Moderate" },
    original_site_burden := zeroSiteBurden, optimized_site_burden := zeroSiteBurden,
    suggestions := [], warnings := [], improvement_percentage := 50, summary := "" }

/-! ## Claim theorems -/

/-- C6.  Category banding is determined by the total score: Low below 25,
Moderate on [25, 50), High on [50, 75), Very High from 75; the boundary
scores 25, 50 and 75 land in Moderate, High and Very High respectively. -/
theorem categorize_bands :
    (∀ q : ℚ,
      (categorize q = "Low" ↔ q < 25)
      ∧ (categorize q = "Moderate" ↔ 25 ≤ q ∧ q < 50)
      ∧ (categorize q = "High" ↔ 50 ≤ q ∧ q < 75)
      ∧ (categorize q = "Very High" ↔ 75 ≤ q))
    ∧ categorize 25 = "Moderate" ∧ categorize 50 = "High" ∧ categorize 75 = "Very High" := by
  refine ⟨fun q => ?_, by decide, by decide, by decide⟩
  unfold categorize
  split_ifs with h1 h2 h3
  · refine ⟨iff_of_true rfl h1, iff_of_false (by decide) ?_, iff_of_false (by decide) ?_,
      iff_of_false (by decide) ?_⟩
    · rintro ⟨h, -⟩; linarith
    · rintro ⟨h, -⟩; linarith
    · intro h; linarith
  · refine ⟨iff_of_false (by decide) h1, iff_of_true rfl ⟨by linarith, h2⟩,
      iff_of_false (by decide) ?_, iff_of_false (by decide) ?_⟩
    · rintro ⟨h, -⟩; linarith
    · intro h; linarith
  · refine ⟨iff_of_false (by decide) h1, iff_of_false (by decide) ?_,
      iff_of_true rfl ⟨by linarith, h3⟩, iff_of_false (by decide) ?_⟩
    · rintro ⟨-, h⟩; linarith
    · intro h; linarith
  · refine ⟨iff_of_false (by decide) h1, iff_of_false (by decide) ?_,
      iff_of_false (by decide) ?_, iff_of_true rfl (by linarith)⟩
    · rintro ⟨-, h⟩; linarith
    · rintro ⟨-, h⟩; linarith

/-- C1.  When both confidence signals are present and differ by at most
the policy threshold 20, the verdict is the agreement verdict: confidence
is the average of the two, method is the agreement label, and arbitration
is not used. -/
theorem reconcile_agreement (p l : MCPSignal)
    (arb : MCPSignal → MCPSignal → Option ArbitrationOutcome)
    (h : |p.confidence - l.confidence| ≤ agreementThreshold) :
    (reconcile (some p) (some l) arb).confidence = (p.confidence + l.confidence) / 2
    ∧ (reconcile (some p) (some l) arb).method = "pattern & llm agreement"
    ∧ (reconcile (some p) (some l) arb).arbitration_used = false := by
  simp only [reconcile, if_pos h]
  exact ⟨trivial, trivial, trivial⟩

/-- C1 witness: pattern 90 and llm 85 differ by 5 ≤ 20 and yield
confidence 87.5, the agreement method, and no arbitration. -/
theorem reconcile_agreement_witness :
    |((90 : ℚ)) - 85| ≤ agreementThreshold
    ∧ (reconcile (some ⟨90, ""⟩) (some ⟨85, ""⟩) (fun _ _ => none)).confidence = 87.5
    ∧ (reconcile (some ⟨90, ""⟩) (some ⟨85, ""⟩) (fun _ _ => none)).method
        = "pattern & llm agreement"
    ∧ (reconcile (some ⟨90, ""⟩) (some ⟨85, ""⟩) (fun _ _ => none)).arbitration_used = false := by
  have h : |((90 : ℚ)) - 85| ≤ agreementThreshold := by norm_num [agreementThreshold]
  have t := reconcile_agreement ⟨90, ""⟩ ⟨85, ""⟩ (fun _ _ => none) h
  exact ⟨h, by rw [t.1]; norm_num, t.2.1, t.2.2⟩

/-- C2.  When both signals are present and differ by more than the
threshold, the reconciler invokes the arbitration collaborator: the
verdict carries the arbitrated confidence and rationale, the arbitration
method label, the arbitration flag, and both original component
confidences for audit. -/
theorem reconcile_arbitration (p l : MCPSignal)
    (arb : MCPSignal → MCPSignal → Option ArbitrationOutcome) (o : ArbitrationOutcome)
    (hdiff : agreementThreshold < |p.confidence - l.confidence|)
    (harb : arb p l = some o) :
    reconcile (some p) (some l) arb =
      { method := "llm arbitration used", confidence := o.confidence,
        pattern_confidence := some p.confidence, llm_confidence := some l.confidence,
        arbitration_used := true, details := o.rationale } := by
  simp only [reconcile, if_neg (not_le.mpr hdiff), harb]

/-- C2 witness: pattern 90 and llm 50 differ by 40 > 20; with an
arbitrator returning confidence 70 the verdict records arbitration and
both component confidences. -/
theorem reconcile_arbitration_witness :
    agreementThreshold < |((90 : ℚ)) - 50|
    ∧ reconcile (some ⟨90, ""⟩) (some ⟨50, ""⟩)
        (fun _ _ => some ⟨70, "judge"⟩) =
      { method := "llm arbitration used", confidence := 70,
        pattern_confidence := some 90, llm_confidence := some 50,
        arbitration_used := true, details := "judge" } := by
  have hdiff : agreementThreshold < |((90 : ℚ)) - 50| := by norm_num [agreementThreshold]
  exact ⟨hdiff,
    reconcile_arbitration ⟨90, ""⟩ ⟨50, ""⟩ (fun _ _ => some ⟨70, "judge"⟩) ⟨70, "judge"⟩ hdiff rfl⟩

/-- C3.  The spec-modelled orchestrator guard reports 0% improvement for
an original total of 0, but the frontend display code divides by the
original total score with no guard: on a result whose original totals are
0 the displayed reductions are not numbers (`none`, i.e. NaN in the
browser); for a non-zero original total the display matches the spec
formula. -/
theorem improvement_zero_guard (r : OptimizationResult)
    (h : r.original_patient_burden.total_score ≠ 0) :
    improvementPercentage 0 0 = 0
    ∧ patientBurdenReductionDisplay zeroScoreResult = none
    ∧ siteBurdenReductionDisplay zeroScoreResult = none
    ∧ patientBurdenImprovementValue zeroScoreResult = none
    ∧ patientBurdenReductionDisplay r =
        some (round ((r.original_patient_burden.total_score
          - r.optimized_patient_burden.total_score)
            / r.original_patient_burden.total_score * 100)) := by
  refine ⟨by simp [improvementPercentage], rfl, rfl, rfl, ?_⟩
  simp [patientBurdenReductionDisplay, jsDivOpt, h]

/-- C3 witness: a result with original patient total 50 and optimized 25
displays a 50% reduction. -/
theorem improvement_zero_guard_witness :
    halvedScoreResult.original_patient_burden.total_score ≠ 0
    ∧ patientBurdenReductionDisplay halvedScoreResult =
        some (round ((halvedScoreResult.original_patient_burden.total_score
          - halvedScoreResult.optimized_patient_burden.total_score)
            / halvedScoreResult.original_patient_burden.total_score * 100)) := by
  have h : halvedScoreResult.original_patient_burden.total_score ≠ 0 := by
    norm_num [halvedScoreResult, zeroBurden]
  exact ⟨h, (improvement_zero_guard halvedScoreResult h).2.2.2.2⟩

/-- C4.  Per the spec-modelled reconciler, a present pattern signal with
confidence 0 and an absent LLM signal yields the verdict method "pattern
matching only" with confidence 0 — but the frontend component treats the
0 as falsy: it relabels the analysis method as "MCP Analysis Completed"
and hides both the overall-confidence block and the pattern-confidence
row, so the state is not reported verbatim. -/
theorem zero_confidence_reporting :
    (reconcile (some ⟨0, "no match"⟩) none (fun _ _ => none)).method = "pattern matching only"
    ∧ (reconcile (some ⟨0, "no match"⟩) none (fun _ _ => none)).confidence = 0
    ∧ getMethodLabel
        (verdictToInfo (reconcile (some ⟨0, "no match"⟩) none (fun _ _ => none)))
        = "MCP Analysis Completed"
    ∧ showsPatternRow
        (verdictToInfo (reconcile (some ⟨0, "no match"⟩) none (fun _ _ => none))) = false
    ∧ showsOverallConfidence
        (verdictToInfo (reconcile (some ⟨0, "no match"⟩) none (fun _ _ => none))) = false := by
  decide

/-- The display comparator is transitive. -/
theorem suggestionDescLE_trans (a b c : OptimizationSuggestion)
    (hab : suggestionDescLE a b) (hbc : suggestionDescLE b c) : suggestionDescLE a c := by
  simp only [suggestionDescLE, decide_eq_true_eq] at *
  exact le_trans hbc hab

/-- The display comparator is total. -/
theorem suggestionDescLE_total (a b : OptimizationSuggestion) :
    suggestionDescLE a b || suggestionDescLE b a := by
  simp only [suggestionDescLE, Bool.or_eq_true, decide_eq_true_eq]
  exact le_total _ _

/-- A stable sort does not reorder the elements selected by a predicate
whose selected elements are mutually ordered. -/
theorem filter_mergeSort_eq {α : Type} (le : α → α → Bool)
    (trans : ∀ a b c, le a b → le b c → le a c)
    (total : ∀ a b, le a b || le b a)
    (p : α → Bool) (hp : ∀ a b, p a = true → p b = true → le a b = true)
    (l : List α) : (l.mergeSort le).filter p = l.filter p := by
  have hpair : (l.filter p).Pairwise (fun a b => le a b = true) :=
    List.pairwise_of_forall_mem_list fun a ha b hb =>
      hp a b (List.of_mem_filter ha) (List.of_mem_filter hb)
  have h1 : List.Sublist (l.filter p) (l.mergeSort le) :=
    List.sublist_mergeSort trans total hpair (List.filter_sublist l)
  have h2 : List.Sublist (l.filter p) ((l.mergeSort le).filter p) := by
    have h3 := h1.filter p
    rwa [List.filter_eq_self.mpr (fun a ha => List.of_mem_filter ha)] at h3
  have hlen : ((l.mergeSort le).filter p).length = (l.filter p).length :=
    ((l.mergeSort_perm le).filter p).length_eq
  exact (h2.eq_of_length hlen.symm).symm

/-- C5.  The displayed suggestion list is a permutation of the input,
sorted in descending order of estimated burden reduction, and suggestions
with equal estimated reduction keep their relative input (pipeline)
order: filtering the sorted list to any fixed reduction value gives
exactly the same-ordered sublist as filtering the input. -/
theorem sortedSuggestions_spec (l : List OptimizationSuggestion) :
    List.Perm (sortedSuggestions l) l
    ∧ (sortedSuggestions l).Pairwise
        (fun a b => b.estimated_burden_reduction ≤ a.estimated_burden_reduction)
    ∧ ∀ q : ℚ,
        (sortedSuggestions l).filter (fun s => decide (s.estimated_burden_reduction = q))
          = l.filter (fun s => decide (s.estimated_burden_reduction = q)) := by
  refine ⟨List.mergeSort_perm l suggestionDescLE, ?_, fun q => ?_⟩
  · have h := List.sorted_mergeSort suggestionDescLE_trans suggestionDescLE_total l
    exact h.imp (fun hab => by simpa [suggestionDescLE] using hab)
  · refine filter_mergeSort_eq suggestionDescLE suggestionDescLE_trans suggestionDescLE_total
      _ ?_ l
    intro a b ha hb
    simp only [decide_eq_true_eq] at ha hb
    simp [suggestionDescLE, ha, hb]

/-- C10.  In both rendered lists the "Applied" badge is attached exactly
at positions 0 through 4: the badge flag of the entry at position `i`
is `i < 5`, whatever the suggestion at that position is. -/
theorem applied_badge_positions :
    (∀ (l : List OptimizationSuggestion) (i : Fin (suggestionsListRendered l).length),
      ((suggestionsListRendered l).get i).2 = decide (i.1 < 5))
    ∧ (∀ (l : List OptimizationSuggestion) (i : Fin (comparisonRendered l).length),
      ((comparisonRendered l).get i).2 = decide (i.1 < 5)) := by
  constructor <;> intro l i <;>
    simp [suggestionsListRendered, comparisonRendered, List.get_eq_getElem, List.enum]

/-- C9.  Structural failures abort: when the burden computation signals
`InvalidScheduleError` the orchestrator surfaces exactly that error and
returns no partial result.  Advisory failures degrade: a failing
compliance collaborator yields exactly the successful-compliance result
with its warnings list emptied — every other field is unaffected. -/
theorem runOptimization_failure_semantics :
    (∀ (s : Schedule) (c : Except CollaboratorFailure (List ComplianceWarning))
        (pat llm : Option MCPSignal)
        (arb : MCPSignal → MCPSignal → Option ArbitrationOutcome)
        (e : InvalidScheduleError),
      computePatientBurden s = .error e →
      runOptimization s c pat llm arb = .error e)
    ∧ (∀ (s : Schedule) (f : CollaboratorFailure)
        (ws : List ComplianceWarning) (pat llm : Option MCPSignal)
        (arb : MCPSignal → MCPSignal → Option ArbitrationOutcome),
      runOptimization s (.error f) pat llm arb =
        (runOptimization s (.ok ws) pat llm arb).map
          (fun r => { r with warnings := [] })) := by
  constructor
  · intro s c pat llm arb e h
    simp only [runOptimization, h]
  · intro s f ws pat llm arb
    simp only [runOptimization]
    cases computePatientBurden s with
    | error e => rfl
    | ok origPatient =>
      cases computeSiteBurden s with
      | error e => rfl
      | ok origSite =>
        cases computePatientBurden (optimize s).1 with
        | error e => rfl
        | ok optPatient =>
          cases computeSiteBurden (optimize s).1 with
          | error e => rfl
          | ok optSite => rfl

/-- C9 witness: the empty-visit schedule is structurally invalid and the
orchestrator surfaces `emptyVisitList` unchanged. -/
theorem runOptimization_failure_semantics_witness :
    computePatientBurden emptySchedule = .error .emptyVisitList
    ∧ runOptimization emptySchedule (.ok []) none none (fun _ _ => none)
        = .error .emptyVisitList := by
  have h : computePatientBurden emptySchedule = .error .emptyVisitList := rfl
  exact ⟨h, runOptimization_failure_semantics.1 emptySchedule (.ok []) none none
    (fun _ _ => none) .emptyVisitList h⟩

/-! ## Conservation of assessment names (C7) -/

/-- The second component of an enumerated pair is a list element. -/
theorem snd_mem_of_mem_enum {α : Type} {l : List α} {q : ℕ × α} (h : q ∈ l.enum) :
    q.2 ∈ l := by
  have h2 : q.2 ∈ l.enum.map Prod.snd := List.mem_map_of_mem Prod.snd h
  simpa [List.enum, List.enumFrom_map_snd] using h2

/-- `filterIdx` only keeps list elements. -/
theorem mem_of_mem_filterIdx {α : Type} {p : ℕ → α → Bool} {l : List α} {a : α}
    (h : a ∈ filterIdx p l) : a ∈ l := by
  simp only [filterIdx, List.mem_map] at h
  obtain ⟨q, hq, rfl⟩ := h
  exact snd_mem_of_mem_enum (List.mem_of_mem_filter hq)

/-- Membership in `allAssessments`, unfolded. -/
theorem mem_allAssessments {vs : List Visit} {a : Assessment} :
    a ∈ allAssessments vs ↔ ∃ v ∈ vs, a ∈ v.assessments := by
  simp [allAssessments, List.mem_bind]

/-- Rule 1 only removes assessments. -/
theorem rule1_assessments_subset (vs : List Visit) (a : Assessment)
    (h : a ∈ allAssessments (rule1 vs).1) : a ∈ allAssessments vs := by
  rw [mem_allAssessments] at h ⊢
  obtain ⟨v', hv', hav'⟩ := h
  simp only [rule1, List.mem_map] at hv'
  obtain ⟨p, hp, rfl⟩ := hv'
  have hav2 : a ∈ filterIdx (fun j b => !isRedundant vs ⟨p.1, p.2, j, b⟩) p.2.assessments :=
    hav'
  exact ⟨p.2, snd_mem_of_mem_enum hp, mem_of_mem_filterIdx hav2⟩

/-- Rule 2's worker only moves assessments between visits. -/
theorem rule2Go_assessments (rest : List Visit) : ∀ (racc : List Visit) (a : Assessment),
    a ∈ allAssessments (rule2Go racc rest).1 →
      a ∈ allAssessments racc ∨ a ∈ allAssessments rest := by
  induction rest with
  | nil =>
    intro racc a h
    simp only [rule2Go] at h
    left
    rw [mem_allAssessments] at h ⊢
    obtain ⟨v, hv, hav⟩ := h
    exact ⟨v, List.mem_reverse.mp hv, hav⟩
  | cons v rest ih =>
    intro racc a h
    match racc with
    | [] =>
      simp only [rule2Go] at h
      rcases ih [v] a h with h1 | h1
      · right
        rw [mem_allAssessments] at h1 ⊢
        obtain ⟨w, hw, haw⟩ := h1
        simp only [List.mem_singleton] at hw
        exact ⟨v, List.mem_cons_self v rest, hw ▸ haw⟩
      · right
        rw [mem_allAssessments] at h1 ⊢
        obtain ⟨w, hw, haw⟩ := h1
        exact ⟨w, List.mem_cons_of_mem v hw, haw⟩
    | u :: racctl =>
      simp only [rule2Go] at h
      by_cases hm : mergeable u v
      · rw [if_pos hm] at h
        rcases ih (mergeVisits u v :: racctl) a h with h1 | h1
        · rw [mem_allAssessments] at h1
          obtain ⟨w, hw, haw⟩ := h1
          rcases List.mem_cons.mp hw with hw1 | hw1
          · subst hw1
            simp only [mergeVisits, List.mem_append] at haw
            rcases haw with haw | haw
            · left
              exact mem_allAssessments.mpr ⟨u, List.mem_cons_self u racctl, haw⟩
            · right
              exact mem_allAssessments.mpr ⟨v, List.mem_cons_self v rest, haw⟩
          · left
            exact mem_allAssessments.mpr ⟨w, List.mem_cons_of_mem u hw1, haw⟩
        · right
          rw [mem_allAssessments] at h1
          obtain ⟨w, hw, haw⟩ := h1
          exact mem_allAssessments.mpr ⟨w, List.mem_cons_of_mem v hw, haw⟩
      · rw [if_neg hm] at h
        rcases ih (v :: u :: racctl) a h with h1 | h1
        · rw [mem_allAssessments] at h1
          obtain ⟨w, hw, haw⟩ := h1
          rcases List.mem_cons.mp hw with hw1 | hw1
          · subst hw1
            right
            exact mem_allAssessments.mpr ⟨w, List.mem_cons_self w rest, haw⟩
          · left
            exact mem_allAssessments.mpr ⟨w, hw1, haw⟩
        · right
          rw [mem_allAssessments] at h1
          obtain ⟨w, hw, haw⟩ := h1
          exact mem_allAssessments.mpr ⟨w, List.mem_cons_of_mem v hw, haw⟩

/-- Rule 2 only moves assessments between visits. -/
theorem rule2_assessments_subset (vs : List Visit) (a : Assessment)
    (h : a ∈ allAssessments (rule2 vs).1) : a ∈ allAssessments vs := by
  rcases rule2Go_assessments vs [] a h with h1 | h1
  · simp [allAssessments] at h1
  · exact h1

/-- Rule 3's worker only drops visits. -/
theorem rule3Iter_assessments (fuel : ℕ) : ∀ (vs : List Visit) (a : Assessment),
    a ∈ allAssessments (rule3Iter fuel vs).1 → a ∈ allAssessments vs := by
  induction fuel with
  | zero => intro vs a h; exact h
  | succ n ih =>
    intro vs a h
    cases hfind : findDroppable vs with
    | none => simp only [rule3Iter, hfind] at h; exact h
    | some i =>
      cases hget : vs.get? i with
      | none => simp only [rule3Iter, hfind, hget] at h; exact h
      | some v =>
        simp only [rule3Iter, hfind, hget] at h
        have h1 := ih (vs.eraseIdx i) a h
        rw [mem_allAssessments] at h1 ⊢
        obtain ⟨w, hw, haw⟩ := h1
        exact ⟨w, (List.eraseIdx_sublist vs i).subset hw, haw⟩

/-- Marking an assessment remote-eligible keeps its name. -/
theorem markRemote_name (a : Assessment) : (markRemote a).name = a.name := by
  unfold markRemote
  split <;> rfl

/-- Rule 4 changes no assessment name: the name lists agree visit by
visit. -/
theorem rule4_names (vs : List Visit) :
    assessmentNames (rule4 vs).1 = assessmentNames vs := by
  simp only [rule4]
  induction vs with
  | nil => rfl
  | cons v vs ih =>
    simp only [List.map_cons, assessmentNames, allAssessments, List.cons_bind,
      List.map_append] at ih ⊢
    rw [ih]
    congr 1
    unfold rule4MarkVisit
    split
    · simp only [List.map_map]
      exact List.map_congr_left fun a _ => markRemote_name a
    · rfl

/-- C7.  Conservation: every assessment name in the optimized schedule
already appears in the original schedule — no rule invents assessments. -/
theorem optimize_conserves_names (s : Schedule) (n : String)
    (h : n ∈ assessmentNames (optimize s).1.visits) :
    n ∈ assessmentNames s.visits := by
  simp only [optimize, optimizeVisits, optimizeVisitsRaw] at h
  rw [rule4_names] at h
  simp only [assessmentNames, List.mem_map] at h ⊢
  obtain ⟨a, ha, rfl⟩ := h
  refine ⟨a, ?_, rfl⟩
  exact rule1_assessments_subset _ a
    (rule2_assessments_subset _ a (rule3Iter_assessments _ _ a ha))

/-! ## No-op behaviour of the pipeline on normalized schedules (C8) -/

/-- Each enumerated assessment of an enumerated visit is an occurrence. -/
theorem mk_mem_occList {vs : List Visit} {p : ℕ × Visit} {q : ℕ × Assessment}
    (hp : p ∈ vs.enum) (hq : q ∈ p.2.assessments.enum) :
    (⟨p.1, p.2, q.1, q.2⟩ : Occ) ∈ occList vs := by
  simp only [occList, List.mem_bind]
  exact ⟨p, hp, by simpa using List.mem_map_of_mem (fun q' => (⟨p.1, p.2, q'.1, q'.2⟩ : Occ)) hq⟩

/-- When every occurrence keeps, `filterIdx` keeps a whole assessment
list. -/
theorem filterIdx_eq_self {α : Type} {p : ℕ → α → Bool} {l : List α}
    (h : ∀ q ∈ l.enum, p q.1 q.2 = true) : filterIdx p l = l := by
  unfold filterIdx
  rw [List.filter_eq_self.mpr h]
  simp [List.enum, List.enumFrom_map_snd]

/-- Rule 1 is a no-op on a schedule with no redundant occurrence. -/
theorem rule1_noop (vs : List Visit)
    (h : ∀ o ∈ occList vs, isRedundant vs o = false) : rule1 vs = (vs, []) := by
  unfold rule1
  have h1 : (occList vs).filter (isRedundant vs) = [] :=
    List.filter_eq_nil_iff.mpr (fun o ho => by simp [h o ho])
  rw [h1]
  have h2 : ∀ p ∈ vs.enum,
      ({ p.2 with assessments :=
          filterIdx (fun j a => !isRedundant vs ⟨p.1, p.2, j, a⟩) p.2.assessments } : Visit)
        = p.2 := by
    intro p hp
    have hf : filterIdx (fun j a => !isRedundant vs ⟨p.1, p.2, j, a⟩) p.2.assessments
        = p.2.assessments := by
      refine filterIdx_eq_self ?_
      intro q hq
      have hocc := mk_mem_occList hp hq
      simp [h _ hocc]
    rw [hf]
  rw [List.map_congr_left h2]
  simp [List.enum, List.enumFrom_map_snd]

/-- No adjacent visit pair qualifies for consolidation. -/
def noMergeableAdjacent (vs : List Visit) : Bool :=
  (adjacentPairs vs).all (fun p => !mergeable p.1 p.2)

/-- Rule 2's worker is a no-op when nothing on its frontier is
mergeable. -/
theorem rule2Go_noop (rest : List Visit) : ∀ racc : List Visit,
    noMergeableAdjacent rest = true →
    (∀ u v, racc.head? = some u → rest.head? = some v → mergeable u v = false) →
    rule2Go racc rest = (racc.reverse ++ rest, []) := by
  induction rest with
  | nil => intro racc _ _; simp [rule2Go]
  | cons v rest ih =>
    intro racc hadj hhead
    have hr : noMergeableAdjacent rest = true := by
      cases rest with
      | nil => rfl
      | cons w rest2 =>
        simp only [noMergeableAdjacent, adjacentPairs, List.all_cons, Bool.and_eq_true] at hadj
        exact hadj.2
    have hv : ∀ w, rest.head? = some w → mergeable v w = false := by
      cases rest with
      | nil => intro w hw; cases hw
      | cons w rest2 =>
        intro w' hw'
        have hww : w = w' := by simpa using hw'
        subst hww
        simp only [noMergeableAdjacent, adjacentPairs, List.all_cons, Bool.and_eq_true] at hadj
        simpa using hadj.1
    cases racc with
    | nil =>
      simp only [rule2Go]
      rw [ih [v] hr ?_]
      · simp
      · intro u w hu hw
        have huv : v = u := by simpa using hu
        subst huv
        exact hv w hw
    | cons u racctl =>
      have hm : mergeable u v = false := hhead u v rfl rfl
      simp only [rule2Go, hm, Bool.false_eq_true, if_false]
      rw [ih (v :: u :: racctl) hr ?_]
      · simp
      · intro x w hx hw
        have hxv : v = x := by simpa using hx
        subst hxv
        exact hv w hw

/-- Rule 2 is a no-op when no adjacent pair is mergeable. -/
theorem rule2_noop (vs : List Visit) (h : noMergeableAdjacent vs = true) :
    rule2 vs = (vs, []) := by
  unfold rule2
  rw [rule2Go_noop vs [] h (by intro u v hu _; simp at hu)]
  simp

/-- Rule 3's worker is a no-op when no visit is droppable. -/
theorem rule3Iter_noop (fuel : ℕ) (vs : List Visit) (h : findDroppable vs = none) :
    rule3Iter fuel vs = (vs, []) := by
  cases fuel with
  | zero => rfl
  | succ n => simp [rule3Iter, h]

/-- Rule 3 is a no-op when no visit is droppable. -/
theorem rule3_noop (vs : List Visit) (h : findDroppable vs = none) :
    rule3 vs = (vs, []) :=
  rule3Iter_noop _ _ h

/-- No assessment is a remote-conversion candidate. -/
def noRemoteCandidate (vs : List Visit) : Bool :=
  vs.all (fun v => v.assessments.all (fun a => !remoteCandidate a))

/-- A bind over a list all of whose images are empty is empty. -/
theorem bind_eq_nil_of_forall {α β : Type} {l : List α} {f : α → List β}
    (h : ∀ x ∈ l, f x = []) : l.bind f = [] := by
  induction l with
  | nil => rfl
  | cons a l ih =>
    have h1 : f a = [] := h a (List.mem_cons_self a l)
    have h2 : l.bind f = [] := ih (fun x hx => h x (List.mem_cons_of_mem a hx))
    simp only [List.cons_bind, h1, List.nil_append]
    exact h2

/-- Rule 4 is a no-op when nothing is a remote-conversion candidate. -/
theorem rule4_noop (vs : List Visit) (h : noRemoteCandidate vs = true) :
    rule4 vs = (vs, []) := by
  have hv : ∀ v ∈ vs, ∀ a ∈ v.assessments, remoteCandidate a = false := by
    intro v hvm a ha
    have h1 := List.all_eq_true.mp h v hvm
    have h2 := List.all_eq_true.mp h1 a ha
    simpa using h2
  unfold rule4
  rw [Prod.mk.injEq]
  constructor
  · have hmv : ∀ v ∈ vs, rule4MarkVisit v = v := by
      intro v hvm
      unfold rule4MarkVisit
      split
      · have h2 : ∀ a ∈ v.assessments, markRemote a = a := by
          intro a ha
          simp [markRemote, hv v hvm a ha]
        have hms : v.assessments.map markRemote = v.assessments := by
          rw [List.map_congr_left h2]
          simp
        rw [hms]
      · rfl
    rw [List.map_congr_left hmv]
    simp
  · refine bind_eq_nil_of_forall ?_
    intro p hp
    split
    · have hfe : (p.2.assessments.enum.filter (fun q => remoteCandidate q.2)) = [] := by
        refine List.filter_eq_nil_iff.mpr ?_
        intro q hq
        simp [hv p.2 (snd_mem_of_mem_enum hp) q.2 (snd_mem_of_mem_enum hq)]
      rw [hfe]
      rfl
    · rfl

/-- No adjacent visit pair has overlapping windows. -/
def noOverlapAdjacent (vs : List Visit) : Bool :=
  (adjacentPairs vs).all (fun p => !windowsOverlap p.1 p.2)

/-- Rule 5 emits nothing when no adjacent windows overlap. -/
theorem rule5_noop (vs : List Visit) (h : noOverlapAdjacent vs = true) :
    rule5 vs = [] := by
  unfold rule5
  rw [List.filter_eq_nil_iff.mpr ?_]
  · rfl
  · intro p hp
    have h1 := List.all_eq_true.mp h p hp
    simp only [Bool.not_eq_true'] at h1
    simp [h1]

/-- A schedule's visit list is normalized when none of the five rules has
anything to do: no redundant occurrence, no mergeable adjacent pair, no
droppable visit, no remote-conversion candidate, and no overlapping
adjacent windows. -/
def NormalizedVisits (vs : List Visit) : Bool :=
  (occList vs).all (fun o => !isRedundant vs o)
    && noMergeableAdjacent vs
    && (findDroppable vs).isNone
    && noRemoteCandidate vs
    && noOverlapAdjacent vs

/-- C8 (amended).  On a normalized schedule the Rules Engine is a no-op:
it returns the schedule unchanged together with an empty suggestion list
(and is therefore idempotent there). -/
theorem optimize_noop_of_normalized (s : Schedule) (h : NormalizedVisits s.visits = true) :
    optimize s = (s, []) := by
  simp only [NormalizedVisits, Bool.and_eq_true] at h
  obtain ⟨⟨⟨⟨h1, h2⟩, h3⟩, h4⟩, h5⟩ := h
  have hr1 : rule1 s.visits = (s.visits, []) := by
    refine rule1_noop _ ?_
    intro o ho
    have := List.all_eq_true.mp h1 o ho
    simpa using this
  have h3' : findDroppable s.visits = none := by
    cases hfd : findDroppable s.visits with
    | none => rfl
    | some i => rw [hfd] at h3; simp at h3
  simp only [optimize, optimizeVisits, optimizeVisitsRaw]
  rw [hr1]
  simp only
  rw [rule2_noop _ h2]
  simp only
  rw [rule3_noop _ h3']
  simp only
  rw [rule4_noop _ h4]
  simp only
  rw [rule5_noop _ h5]
  simp [sortedSuggestions]

/-- Fixture: a plain assessment with the given name, category and
duration; not invasive, no fasting, no equipment or staff, not
remote-feasible. -/
def mkA (nm ty : String) (dur : ℤ) : Assessment :=
  { name := nm, type := ty, duration_minutes := dur, is_invasive := false,
    is_fasting_required := false, equipment_needed := [], staff_required := [],
    cost_estimate := 0, patient_discomfort_level := 0, can_be_done_remotely := false }

/-- Fixture: screening visit at day 0 with one lab assessment. -/
def visitScreening : Visit :=
  { name := "Screening", day := 0, window_days_before := 1, window_days_after := 1,
    assessments := [mkA "Blood Draw" "lab" 30] }

/-- Fixture: week-2 visit at day 15 with one vitals assessment. -/
def visitWeek2 : Visit :=
  { name := "Week 2", day := 15, window_days_before := 1, window_days_after := 1,
    assessments := [mkA "Vital Signs" "vitals" 30] }

/-- Fixture: week-4 visit at day 25 with one lab assessment. -/
def visitWeek4 : Visit :=
  { name := "Week 4", day := 25, window_days_before := 1, window_days_after := 1,
    assessments := [mkA "ECG" "lab" 30] }

/-- Fixture: a three-visit schedule on which consolidation moves the day-25
lab assessment to day 15, inside the 21-day redundancy window of the day-0
lab assessment. -/
def schedThreeVisits : Schedule :=
  { protocol_name := "P", protocol_version := "1", therapeutic_area := "onc",
    phase := "2", visits := [visitScreening, visitWeek2, visitWeek4],
    total_duration_days := 40 }

/-- Fixture: a two-visit schedule with nothing for any rule to do. -/
def schedNormalized : Schedule :=
  { protocol_name := "Q", protocol_version := "1", therapeutic_area := "cards",
    phase := "3",
    visits :=
      [{ name := "Baseline", day := 0, window_days_before := 1, window_days_after := 1,
         assessments := [mkA "Blood Draw" "lab" 30] },
       { name := "Closeout", day := 100, window_days_before := 1, window_days_after := 1,
         assessments := [mkA "Vital Signs" "vitals" 30] }],
    total_duration_days := 120 }

set_option maxRecDepth 8000 in
/-- C8 counterexample.  Running the engine on its own output is not a
no-op on `schedThreeVisits`: the first run consolidates the day-25 visit
into the day-15 visit, which creates a lab-category duplicate within the
21-day window, so the second run emits a new suggestion and changes the
schedule again. -/
theorem optimize_not_idempotent :
    (optimize (optimize schedThreeVisits).1).2 ≠ []
    ∧ (optimize (optimize schedThreeVisits).1).1 ≠ (optimize schedThreeVisits).1 := by
  constructor
  · intro hc
    have he : (optimize (optimize schedThreeVisits).1).2
        = sortedSuggestions (optimizeVisitsRaw (optimize schedThreeVisits).1.visits).2 := rfl
    rw [he] at hc
    have hperm := List.mergeSort_perm
      (optimizeVisitsRaw (optimize schedThreeVisits).1.visits).2 suggestionDescLE
    rw [show sortedSuggestions (optimizeVisitsRaw (optimize schedThreeVisits).1.visits).2
        = List.mergeSort (optimizeVisitsRaw (optimize schedThreeVisits).1.visits).2
            suggestionDescLE from rfl] at hc
    rw [hc] at hperm
    have hnil := hperm.symm.eq_nil
    have hne : (optimizeVisitsRaw (optimize schedThreeVisits).1.visits).2 ≠ [] := by decide
    exact hne hnil
  · decide

/-- C8 witness: `schedNormalized` is normalized and the engine returns it
unchanged with an empty suggestion list. -/
theorem optimize_noop_of_normalized_witness :
    NormalizedVisits schedNormalized.visits = true
    ∧ optimize schedNormalized = (schedNormalized, []) := by
  have h : NormalizedVisits schedNormalized.visits = true := by decide
  exact ⟨h, optimize_noop_of_normalized schedNormalized h⟩

/-- C7 witness: the name "ECG" appears in the optimized
`schedThreeVisits` (inside the combined visit) and indeed already appears
in the original schedule. -/
theorem optimize_conserves_names_witness :
    "ECG" ∈ assessmentNames (optimize schedThreeVisits).1.visits
    ∧ "ECG" ∈ assessmentNames schedThreeVisits.visits := by
  have h : "ECG" ∈ assessmentNames (optimize schedThreeVisits).1.visits := by decide
  exact ⟨h, optimize_conserves_names schedThreeVisits "ECG" h⟩
